import Mathlib

/-!
Verification of the activity-filtering engine (`InventorySet.act_fltr`,
`InventorySet.generate_sets_from_filters` in `premise/activity_maps.py`) and of
the scenario-to-inventory mapping pipeline (`PathwaysDataPackage` in
`premise/pathways.py`).

Strings are modelled as lists of characters; Python `in` on strings (substring
test) is `strIn`; inventory records (Python dicts) are association lists with
`recGet` modelling `dict.get(field, "")`.  Fallible Python code (assertions,
`KeyError`, `AttributeError`) is modelled with `Except String`.
-/

namespace Premise

/-- Character strings, modelled as lists of characters. -/
abbrev Str := List Char

/-- Conversion from Lean string literals to the `Str` model. -/
def chars (s : String) : Str := s.data

/-- Python `hay.startswith(pat)` on the character-list model. -/
def startsWith : Str → Str → Bool
  | [], _ => true
  | _ :: _, [] => false
  | a :: ps, b :: hs => a == b && startsWith ps hs

/-- Python `pat in hay` (substring containment) on the character-list model. -/
def strIn (pat : Str) : Str → Bool
  | [] => startsWith pat []
  | c :: t => startsWith pat (c :: t) || strIn pat t

/-- Python `s.lower()` restricted to ASCII case mapping. -/
def strLower (s : Str) : Str := s.map Char.toLower

/-- Python `s.upper()` restricted to ASCII case mapping. -/
def strUpper (s : Str) : Str := s.map Char.toUpper

/-- An inventory record: a Python dict from field names to string values,
modelled as an association list (`name`, `reference product`, `unit`, ...). -/
abbrev Record := List (Str × Str)

/-- Python `record.get(field, "")`: value of the first matching key, else `""`. -/
def recGet (r : Record) (field : Str) : Str :=
  match r.find? (fun p => p.1 == field) with
  | some p => p.2
  | none => []

/-- A value of a filter dictionary entry: a single pattern or a list of
patterns (the two shapes a YAML filter value takes). -/
inductive FltrVal where
  | single : Str → FltrVal
  | many : List Str → FltrVal
deriving DecidableEq

/-- A `fltr`/`mask` argument of `act_fltr`: a bare string, a bare list, or a
field-to-pattern(s) dictionary (Python `Union[str, list, dict]`). -/
inductive FltrSpec where
  | str : Str → FltrSpec
  | list : List Str → FltrSpec
  | dict : List (Str × FltrVal) → FltrSpec
deriving DecidableEq

instance instDecEqExcept {ε α : Type} [DecidableEq ε] [DecidableEq α] :
    DecidableEq (Except ε α) := fun a b =>
  match a, b with
  | .ok x, .ok y => decidable_of_iff (x = y) (by simp)
  | .ok _, .error _ => .isFalse (fun hc => by cases hc)
  | .error _, .ok _ => .isFalse (fun hc => by cases hc)
  | .error x, .error y => decidable_of_iff (x = y) (by simp)

/-- The normalisation at the top of `act_fltr`: a bare string or list is
wrapped as the value of the default field `name`. -/
def normalize : FltrSpec → List (Str × FltrVal)
  | .str s => [(chars "name", .single s)]
  | .list l => [(chars "name", .many l)]
  | .dict m => m

/-- The list of patterns held by a filter value. -/
def pats : FltrVal → List Str
  | .single s => [s]
  | .many l => l

/-- Model of `wurst.searching.contains(field, value)`: the pattern occurs as a
substring of the record's field value. -/
def wcontains (field value : Str) : Record → Bool :=
  fun x => strIn value (recGet x field)

/-- Model of `wurst.searching.either(*fs)`: true when any filter accepts. -/
def weither (fs : List (Record → Bool)) : Record → Bool :=
  fun x => fs.any (fun f => f x)

/-- Model of `wurst.searching.exclude(f)`: boolean negation of a filter. -/
def wexclude (f : Record → Bool) : Record → Bool :=
  fun x => !(f x)

/-- Model of `wurst.searching.get_many(data, *filters)`: successive
`filter` passes over the data, one per filter. -/
def get_many : List (Record → Bool) → List Record → List Record
  | [], data => data
  | g :: gs, data => get_many gs (data.filter g)

/-- The include filters built by the first loop of `act_fltr`: one `either`
of `contains` per list-valued field, one `contains` per single-valued field. -/
def inclFilters : List (Str × FltrVal) → List (Record → Bool)
  | [] => []
  | p :: rest =>
    (match p.2 with
     | .many vs => weither (vs.map (fun v => wcontains p.1 v))
     | .single v => wcontains p.1 v) :: inclFilters rest

/-- The exclude filters built by the second loop of `act_fltr`: one
`exclude (contains ...)` per pattern. -/
def maskFilters : List (Str × FltrVal) → List (Record → Bool)
  | [] => []
  | p :: rest =>
    (match p.2 with
     | .many vs => vs.map (fun v => wexclude (wcontains p.1 v))
     | .single v => [wexclude (wcontains p.1 v)]) ++ maskFilters rest

/-- The full filter list assembled by `act_fltr` before calling `get_many`. -/
def buildFilters (f m : List (Str × FltrVal)) : List (Record → Bool) :=
  inclFilters f ++ maskFilters m

/-- Model of `InventorySet.act_fltr` (`activity_maps.py`): normalise the
include and exclude specifications, assert the include dict is non-empty,
then run `get_many` over the assembled filters.  `filterExact` and
`maskExact` mirror the Python parameters `filter_exact` and `mask_exact`,
which the body never reads. -/
def act_fltr (database : List Record) (fltr : Option FltrSpec) (mask : Option FltrSpec)
    (filterExact maskExact : Bool) : Except String (List Record) :=
  if 0 < (normalize (fltr.getD (.dict []))).length then
    .ok (get_many
      (buildFilters (normalize (fltr.getD (.dict [])))
        (normalize (mask.getD (.dict [])))) database)
  else
    .error "Filter dict must not be empty."

/-- Unwrap an `act_fltr` result, defaulting to the empty list on error. -/
def resList (e : Except String (List Record)) : List Record :=
  match e with
  | .ok l => l
  | .error _ => []

/-- Projection of a record list to the `name` field of each record. -/
def namesOf (l : List Record) : List Str :=
  l.map (fun r => recGet r (chars "name"))

/-- Specification-side predicate: the record's field value contains the
pattern as a substring (the match relation implemented by the engine). -/
def matchesField (r : Record) (field pat : Str) : Prop :=
  strIn pat (recGet r field) = true

instance (r : Record) (field pat : Str) : Decidable (matchesField r field pat) := by
  unfold matchesField; infer_instance

/-- Specification-side include criterion: for each include field, the record
matches at least one of that field's patterns. -/
def includeOK (fl : List (Str × FltrVal)) (r : Record) : Prop :=
  ∀ p ∈ fl, ∃ s ∈ pats p.2, matchesField r p.1 s

/-- Specification-side exclude criterion: the record matches no exclude
pattern of any exclude field. -/
def excludeOK (mk : List (Str × FltrVal)) (r : Record) : Prop :=
  ∀ p ∈ mk, ∀ s ∈ pats p.2, ¬ matchesField r p.1 s

/-- One entry of a per-technology filter specification, as loaded from the
YAML mapping files: the keyword arguments handed to `act_fltr`. -/
structure FilterDef where
  fltr : Option FltrSpec
  mask : Option FltrSpec
deriving DecidableEq

/-- Model of `InventorySet.generate_sets_from_filters`: apply `act_fltr` per
technology, then project each matched record list to the set of its `name`
fields.  The Python dict comprehensions become one in-order traversal; an
`AssertionError` raised by any `act_fltr` call aborts the whole call. -/
def generate_sets_from_filters (db : List Record) :
    List (Str × FilterDef) → Except String (List (Str × Finset Str))
  | [] => .ok []
  | tf :: rest =>
    match act_fltr db tf.2.fltr tf.2.mask false false with
    | .error e => .error e
    | .ok l =>
      match generate_sets_from_filters db rest with
      | .error e => .error e
      | .ok r => .ok ((tf.1, (namesOf l).toFinset) :: r)

/-- A dataset entry of the variable mapping: exactly the three projected
fields `name`, `reference product`, `unit`. -/
structure ActTriple where
  name : Str
  referenceProduct : Str
  unit : Str
deriving DecidableEq

/-- The projection applied by `find_activities` to each matched record. -/
def projRecord (r : Record) : ActTriple :=
  ⟨recGet r (chars "name"), recGet r (chars "reference product"),
    recGet r (chars "unit")⟩

/-- The three dict keys `find_activities` keeps in a dict-shaped filter. -/
def allowedKeyB (k : Str) : Bool :=
  k == chars "name" || k == chars "reference product" || k == chars "unit"

/-- Python truthiness of a filter specification (empty string, list or dict
are falsy), used to model the `mask or ` default in `find_activities`. -/
def isFalsy : FltrSpec → Bool
  | .str s => s.isEmpty
  | .list l => l.isEmpty
  | .dict m => m.isEmpty

/-- The mask actually handed to `act_fltr` by `find_activities`: a missing or
falsy mask argument is replaced by the empty dict. -/
def maskNorm (mask : Option FltrSpec) : FltrSpec :=
  match mask with
  | none => .dict []
  | some s => if isFalsy s then .dict [] else s

/-- Model of `PathwaysDataPackage.find_activities`: strip a dict-shaped
filter down to the keys `name`, `reference product`, `unit`, run `act_fltr`,
and project every match to its three-field triple. -/
def find_activities (db : List Record) (filters : Option FltrSpec)
    (mask : Option FltrSpec) : Except String (List ActTriple) :=
  let filters2 : Option FltrSpec :=
    match filters with
    | some (.dict m) => some (.dict (m.filter (fun p => allowedKeyB p.1)))
    | f => f
  match act_fltr db filters2 (some (maskNorm mask)) false false with
  | .error e => .error e
  | .ok l => .ok (l.map projRecord)

/-- The triple-deduplication step of `add_variables_mapping`
(`[dict(t) for t in set-of-sorted-item-tuples]`): duplicate triples collapse
to one occurrence.  Python's set iteration order is modelled as
first-occurrence order. -/
def dedupTriples (l : List ActTriple) : List ActTriple :=
  l.dedup

/-- One value of a scenario's `external data` dict: we retain the
`variables` coordinate of its `production volume` array. -/
structure ExternalDatum where
  productionVolumeVariables : List Str
deriving DecidableEq

/-- One entry of `configurations["production pathways"]`: its
`production volume -> variable` name and its optional `ecoinvent alias`
dict (whose `mask` key, when present, is the exclude specification). -/
structure ProductionPathway where
  productionVolumeVariable : Str
  ecoinventAlias : Option (List (Str × FltrVal))
deriving DecidableEq

/-- A scenario's `configurations` dict; only the `production pathways`
key is read by `add_variables_mapping`. -/
structure Configurations where
  productionPathways : Option (List (Str × ProductionPathway))
deriving DecidableEq

/-- A scenario entry as consumed by `PathwaysDataPackage`: model, pathway,
the `variables` coordinate of its `iam data` array, its transformed
database, and the optional `external scenarios` / `external data` /
`configurations` keys. -/
structure Scenario where
  model : Str
  pathway : Str
  iamVariables : List Str
  database : List Record
  externalScenarios : Option (List Str)
  externalData : Option (List ExternalDatum)
  configurations : Option Configurations
deriving DecidableEq

/-- The `ecoinvent_aliases` value of an alias-table row: its optional
`fltr` and `mask` entries. -/
structure EcoAliases where
  fltr : Option FltrSpec
  mask : Option FltrSpec
deriving DecidableEq

/-- One row of the IAM variable alias table (one YAML entry), flattened
across the files of `iam_variables_mapping/` in iteration order. -/
structure AliasEntry where
  var : Str
  iamAliases : Option (List (Str × Str))
  ecoinventAliases : Option EcoAliases
deriving DecidableEq

/-- One value of the variable mapping output: the claimed scenario
variable and the deduplicated dataset triples. -/
structure MappingEntry where
  scenarioVariable : Str
  dataset : List ActTriple
deriving DecidableEq

/-- The variable mapping under construction: a Python dict from canonical
variable to mapping entry, as an association list in insertion order. -/
abbrev Mapping := List (Str × MappingEntry)

/-- Python `dict[k] = v`: replace the value at an existing key in place,
else append the binding at the end. -/
def dictInsert {α : Type} : List (Str × α) → Str → α → List (Str × α)
  | [], k, v => [(k, v)]
  | p :: rest, k, v =>
    if p.1 = k then (k, v) :: rest else p :: dictInsert rest k v

/-- Python `k in dict`. -/
def hasKey {α : Type} (m : List (Str × α)) (k : Str) : Bool :=
  m.any (fun p => p.1 == k)

/-- Python `dict.get(k)`. -/
def dictLookup {α : Type} (m : List (Str × α)) (k : Str) : Option α :=
  (m.find? (fun p => p.1 == k)).map (fun p => p.2)

/-- Reinterpret a dict value as a filter specification (the shape in which
a production pathway's `mask` entry reaches `find_activities`). -/
def fltrValToSpec : FltrVal → FltrSpec
  | .single s => .str s
  | .many l => .list l

/-- The variable-exclusion test of `add_variables_mapping`: keep a variable
unless its lowercase form contains `efficiency` or `emission`. -/
def keepVar (v : Str) : Bool :=
  !(strIn (chars "efficiency") (strLower v)) && !(strIn (chars "emission") (strLower v))

/-- The per-scenario external variable lists gathered by
`add_variables_mapping`: for each scenario with an `external scenarios` key,
the `production volume` variables of each of its `external data` values
(a missing `external data` key raises `KeyError`). -/
def externalVarLists : List Scenario → Except String (List (List Str))
  | [] => .ok []
  | sc :: rest =>
    match sc.externalScenarios with
    | none => externalVarLists rest
    | some _ =>
      match sc.externalData with
      | none => .error "KeyError: external data"
      | some eds =>
        match externalVarLists rest with
        | .error e => .error e
        | .ok ls => .ok ((eds.map (fun d => d.productionVolumeVariables)) ++ ls)

/-- The active scenario variable set of `add_variables_mapping`: iam
variables of every scenario plus external production-volume variables,
each list filtered by `keepVar`, flattened and deduplicated. -/
def activeVars (scenarios : List Scenario) : Except String (List Str) :=
  match externalVarLists scenarios with
  | .error e => .error e
  | .ok ext =>
    .ok (((((scenarios.map (fun sc => sc.iamVariables)) ++ ext).map
      (fun l => l.filter keepVar)).flatten).dedup)

/-- The inner loop of the alias-table pass of `add_variables_mapping`: walk
one row's `iam_aliases` items; a pair whose variable is active and whose
model is loaded claims the variable unless it was already claimed (then it
is skipped with a printed diagnostic), recording the deduplicated dataset
from `find_activities` under the row's canonical variable. -/
def pass1_aliases (vars models : List Str) (db : List Record) (var : Str)
    (eco : EcoAliases) : List (Str × Str) → (List Str × Mapping) →
    Except String (List Str × Mapping)
  | [], st => .ok st
  | mm :: rest, st =>
    if mm.2 ∈ vars ∧ mm.1 ∈ models then
      if mm.2 ∈ st.1 then pass1_aliases vars models db var eco rest st
      else
        match find_activities db eco.fltr eco.mask with
        | .error e => .error e
        | .ok ds =>
          pass1_aliases vars models db var eco rest
            (st.1 ++ [mm.2], dictInsert st.2 var ⟨mm.2, dedupTriples ds⟩)
    else pass1_aliases vars models db var eco rest st

/-- The alias-table pass of `add_variables_mapping`: rows lacking either an
`iam_aliases` or an `ecoinvent_aliases` key are ignored; the others are
processed by `pass1_aliases` in YAML order. -/
def pass1_table (vars models : List Str) (db : List Record) :
    List AliasEntry → (List Str × Mapping) → Except String (List Str × Mapping)
  | [], st => .ok st
  | e :: rest, st =>
    match e.iamAliases with
    | none => pass1_table vars models db rest st
    | some al =>
      match e.ecoinventAliases with
      | none => pass1_table vars models db rest st
      | some eco =>
        match pass1_aliases vars models db e.var eco al st with
        | .error err => .error err
        | .ok st2 => pass1_table vars models db rest st2

/-- The per-pathway body of the extension pass of `add_variables_mapping`:
a production pathway whose key is not yet in the mapping is resolved via
`find_activities` on its `ecoinvent alias` dict (a missing alias dict makes
the `get` chain raise `AttributeError`); when more than one triple remains
after deduplication, triples whose name contains another declared pathway
key are dropped. -/
def pass2_pathways (db : List Record) (allpws : List (Str × ProductionPathway)) :
    List (Str × ProductionPathway) → Mapping → Except String Mapping
  | [], m => .ok m
  | pv :: rest, m =>
    if hasKey m pv.1 then pass2_pathways db allpws rest m
    else
      match pv.2.ecoinventAlias with
      | none => .error "AttributeError"
      | some adict =>
        match find_activities db (some (.dict adict))
            ((dictLookup adict (chars "mask")).map fltrValToSpec) with
        | .error e => .error e
        | .ok ds =>
          let ds2 := dedupTriples ds
          let ds3 :=
            if 1 < ds2.length then
              let others := (allpws.map Prod.fst).erase pv.1
              ds2.filter (fun d => !(others.any (fun v => strIn v d.name)))
            else ds2
          pass2_pathways db allpws rest
            (dictInsert m pv.1 ⟨pv.2.productionVolumeVariable, ds3⟩)

/-- The extension pass of `add_variables_mapping` over all scenarios:
scenarios without a `configurations` / `production pathways` key are
skipped. -/
def pass2_scenarios : List Scenario → Mapping → Except String Mapping
  | [], m => .ok m
  | sc :: rest, m =>
    match sc.configurations with
    | none => pass2_scenarios rest m
    | some conf =>
      match conf.productionPathways with
      | none => pass2_scenarios rest m
      | some pws =>
        match pass2_pathways sc.database pws pws m with
        | .error e => .error e
        | .ok m2 => pass2_scenarios rest m2

/-- The database of the first scenario (`scenarios[0]["database"]`), the one
the alias-table pass resolves datasets against. -/
def headDatabase : List Scenario → List Record
  | [] => []
  | sc :: _ => sc.database

/-- Model of `PathwaysDataPackage.add_variables_mapping`: compute the active
variables, run the alias-table pass (datasets resolved against the first
scenario's database) and then the production-pathways extension pass. -/
def add_variables_mapping (scenarios : List Scenario) (table : List AliasEntry) :
    Except String Mapping :=
  match activeVars scenarios with
  | .error e => .error e
  | .ok vars =>
    match pass1_table vars (scenarios.map (fun sc => sc.model))
        (headDatabase scenarios) table ([], []) with
    | .error e => .error e
    | .ok st => pass2_scenarios scenarios st.2

/-- The scenario label list built by `add_scenario_data`: each scenario
contributes `MODEL - pathway`; a scenario with external scenarios suffixes
`-<external scenario>` for each of them and appends the resulting name
twice (once inside the external branch and once unconditionally). -/
def scenario_names : List Scenario → List Str
  | [] => []
  | sc :: rest =>
    (match sc.externalScenarios with
     | none => [strUpper sc.model ++ chars " - " ++ sc.pathway]
     | some exts =>
       let name := strUpper sc.model ++ chars " - " ++ sc.pathway ++
         (exts.map (fun e => chars "-" ++ e)).flatten
       [name, name]) ++ scenario_names rest

/-- The number of slices concatenated by `add_scenario_data` along the new
`scenario` axis: one `iam data` array per scenario plus one
`production volume` array per `external data` value. -/
def scenario_data_len (scenarios : List Scenario) : Nat :=
  scenarios.length +
    ((scenarios.map (fun sc => (sc.externalData.getD []).length)).sum)

/-- Composite label of one scenario entry as the specification words it:
`MODEL - pathway` suffixed with `-<external scenario>` for each external
scenario of the entry. -/
def composite_label (sc : Scenario) : Str :=
  strUpper sc.model ++ chars " - " ++ sc.pathway ++
    (((sc.externalScenarios.getD []).map (fun e => chars "-" ++ e)).flatten)

/-! Characterisation lemmas for the filter engine. -/

/-- Membership in `get_many`: a record survives iff it is in the data and
every filter accepts it. -/
theorem mem_get_many (r : Record) (gs : List (Record → Bool)) :
    ∀ data : List Record, r ∈ get_many gs data ↔ r ∈ data ∧ ∀ g ∈ gs, g r = true := by
  induction gs with
  | nil => intro data; simp [get_many]
  | cons g gs ih =>
    intro data
    rw [get_many, ih]
    simp only [List.mem_filter, List.forall_mem_cons]
    tauto

/-- The include filters accept a record iff the include criterion holds. -/
theorem inclFilters_sound (fl : List (Str × FltrVal)) (r : Record) :
    (∀ g ∈ inclFilters fl, g r = true) ↔ includeOK fl r := by
  induction fl with
  | nil => simp [inclFilters, includeOK]
  | cons p rest ih =>
    rw [inclFilters, List.forall_mem_cons, ih]
    unfold includeOK
    rw [List.forall_mem_cons]
    apply and_congr_left
    intro _
    cases p.2 with
    | single v => simp [wcontains, pats, matchesField]
    | many vs =>
      simp [weither, wcontains, List.any_eq_true, pats, matchesField]

/-- The exclude filters accept a record iff the exclude criterion holds. -/
theorem maskFilters_sound (mk : List (Str × FltrVal)) (r : Record) :
    (∀ g ∈ maskFilters mk, g r = true) ↔ excludeOK mk r := by
  induction mk with
  | nil => simp [maskFilters, excludeOK]
  | cons p rest ih =>
    rw [maskFilters, List.forall_mem_append, ih]
    unfold excludeOK
    rw [List.forall_mem_cons]
    apply and_congr_left
    intro _
    cases p.2 with
    | single v => simp [wexclude, wcontains, pats, matchesField]
    | many vs => simp [wexclude, wcontains, pats, matchesField]

/-- C1: for every database, every include specification accepted by the
non-emptiness assertion and every optional exclude specification, `act_fltr`
returns exactly the records of the database that satisfy the include
criterion (per include field, at least one pattern matches) and the exclude
criterion (no exclude pattern of any exclude field matches); in particular
the result is a subset of the input. -/
theorem act_fltr_correct (db : List Record) (f : FltrSpec) (msk : Option FltrSpec)
    (fe me : Bool) (l : List Record)
    (h : act_fltr db (some f) msk fe me = .ok l) :
    (∀ r ∈ l, r ∈ db) ∧
    ∀ r, r ∈ l ↔ r ∈ db ∧ includeOK (normalize f) r ∧
      excludeOK (normalize (msk.getD (.dict []))) r := by
  unfold act_fltr at h
  split at h
  case isFalse => exact absurd h (by simp)
  case isTrue hlen =>
    injection h with h
    subst h
    refine ⟨fun r hr => ((mem_get_many r _ db).mp hr).1, fun r => ?_⟩
    rw [mem_get_many]
    unfold buildFilters
    rw [List.forall_mem_append, inclFilters_sound, maskFilters_sound]
    simp [Option.getD]

/-- Witness for C1 at a concrete database, include and exclude
specification. -/
def recC1a : Record := [(chars "name", chars "coal power plant")]

def recC1b : Record := [(chars "name", chars "wind and coal hybrid plant")]

theorem act_fltr_correct_witness :
    recC1a ∈ [recC1a, recC1b] ∧
    includeOK (normalize (.str (chars "coal"))) recC1a ∧
    excludeOK (normalize ((some (FltrSpec.str (chars "wind"))).getD (.dict []))) recC1a :=
  ((act_fltr_correct [recC1a, recC1b] (.str (chars "coal"))
      (some (.str (chars "wind"))) false false [recC1a] (by decide)).2 recC1a).mp
    (by decide)

/-- C2 evidence: the `filter_exact` / `mask_exact` parameters are never read
by `act_fltr`, so passing `true` still performs substring matching: a record
whose name merely contains the pattern is returned. -/
def recC2 : Record := [(chars "name", chars "hard coal power")]

theorem act_fltr_exact_flags_ignored :
    (∀ db f m fe me, act_fltr db f m fe me = act_fltr db f m false false) ∧
    act_fltr [recC2] (some (.str (chars "hard coal"))) none true true = .ok [recC2] ∧
    recGet recC2 (chars "name") ≠ chars "hard coal" :=
  ⟨fun _ _ _ _ _ => rfl, by decide, by decide⟩

/-- C4: with an empty include specification (a missing `fltr` argument or an
empty dict) `act_fltr` raises the assertion for every database and every
mask, never returning an empty result; the error does not depend on the
database. -/
theorem act_fltr_empty_raises (db : List Record) (msk : Option FltrSpec) (fe me : Bool) :
    act_fltr db none msk fe me = .error "Filter dict must not be empty." ∧
    act_fltr db (some (.dict [])) msk fe me = .error "Filter dict must not be empty." :=
  ⟨rfl, rfl⟩

/-- C10: the empty list as include specification does not raise: it is
normalised to the one-field dict mapping `name` to an empty pattern list,
passes the non-emptiness assertion, and matches no record, so the result is
the empty list for every database and mask. -/
theorem act_fltr_empty_list_ok (db : List Record) (msk : Option FltrSpec) (fe me : Bool) :
    act_fltr db (some (.list [])) msk fe me = .ok [] := by
  unfold act_fltr
  rw [if_pos (by simp [normalize])]
  have hempty : get_many
      (buildFilters (normalize ((some (FltrSpec.list [])).getD (.dict [])))
        (normalize (msk.getD (.dict [])))) db = [] := by
    rw [List.eq_nil_iff_forall_not_mem]
    intro r hr
    rw [mem_get_many] at hr
    have hmem : weither ([].map (fun v => wcontains (chars "name") v)) ∈
        buildFilters (normalize ((some (FltrSpec.list [])).getD (.dict [])))
          (normalize (msk.getD (.dict []))) := by
      simp [buildFilters, normalize, inclFilters, Option.getD]
    have := hr.2 _ hmem
    simp [weither] at this
  rw [hempty]

/-- C8: with the same include specification, the name set matched under any
exclude specification is contained in the name set matched under the empty
exclude specification. -/
theorem act_fltr_mask_subset (db : List Record) (f : FltrSpec) (m : FltrSpec)
    (fe me fe2 me2 : Bool) :
    namesOf (resList (act_fltr db (some f) (some m) fe me)) ⊆
      namesOf (resList (act_fltr db (some f) none fe2 me2)) := by
  unfold act_fltr
  by_cases hlen : 0 < (normalize ((some f).getD (.dict []))).length
  · rw [if_pos hlen, if_pos hlen]
    apply List.map_subset
    intro r hr
    simp only [resList] at *
    rw [mem_get_many] at hr
    rw [mem_get_many]
    refine ⟨hr.1, fun g hg => hr.2 g ?_⟩
    unfold buildFilters at hg ⊢
    rcases List.mem_append.mp hg with hg2 | hg2
    · exact List.mem_append_left _ hg2
    · simp [normalize, maskFilters, Option.getD] at hg2
  · rw [if_neg hlen, if_neg hlen]
    simp [resList, namesOf]

/-- C6: `generate_sets_from_filters` returns a mapping with exactly the keys
of the filter collection, each key holding the set of `name` fields of the
records matched by `act_fltr` for that key's definition (names merged by set
semantics). -/
theorem generate_sets_spec (db : List Record) (filtr : List (Str × FilterDef))
    (res : List (Str × Finset Str))
    (h : generate_sets_from_filters db filtr = .ok res) :
    res.map Prod.fst = filtr.map Prod.fst ∧
    List.Forall₂ (fun tf r => ∃ l, act_fltr db tf.2.fltr tf.2.mask false false = .ok l ∧
      r = (tf.1, (namesOf l).toFinset)) filtr res := by
  induction filtr generalizing res with
  | nil =>
    rw [generate_sets_from_filters] at h
    injection h with h
    subst h
    exact ⟨rfl, List.Forall₂.nil⟩
  | cons tf rest ih =>
    rw [generate_sets_from_filters] at h
    cases hact : act_fltr db tf.2.fltr tf.2.mask false false with
    | error e => rw [hact] at h; cases h
    | ok l =>
      rw [hact] at h
      cases hrec : generate_sets_from_filters db rest with
      | error e => rw [hrec] at h; cases h
      | ok r2 =>
        rw [hrec] at h
        injection h with h
        subst h
        obtain ⟨h1, h2⟩ := ih r2 hrec
        exact ⟨by simp [h1], List.Forall₂.cons ⟨l, hact, rfl⟩ h2⟩

/-- Witness data for C6: the end-to-end powerplant-map scenario of the
specification. -/
def dbC6 : List Record :=
  [[(chars "name", chars "electricity production, hard coal")],
   [(chars "name", chars "electricity production, wind")]]

def filtrC6 : List (Str × FilterDef) :=
  [(chars "coal power plant",
    ⟨some (.str (chars "electricity production, hard coal")), none⟩)]

def resC6 : List (Str × Finset Str) :=
  [(chars "coal power plant", {chars "electricity production, hard coal"})]

theorem generate_sets_spec_witness :
    resC6.map Prod.fst = filtrC6.map Prod.fst ∧
    List.Forall₂ (fun tf r => ∃ l, act_fltr dbC6 tf.2.fltr tf.2.mask false false = .ok l ∧
      r = (tf.1, (namesOf l).toFinset)) filtrC6 resC6 :=
  generate_sets_spec dbC6 filtrC6 resC6 (by decide)

/-- C7: every entry of a successful `find_activities` result is the
three-field projection of a matched record of the stripped filter run, and
stripping a dict-shaped filter of its non-`name`/`reference product`/`unit`
keys does not change the result, so extra keys never constrain matching. -/
theorem find_activities_spec (db : List Record) (m : List (Str × FltrVal))
    (msk : Option FltrSpec) (l : List ActTriple)
    (h : find_activities db (some (.dict m)) msk = .ok l) :
    (∃ recs, act_fltr db (some (.dict (m.filter (fun p => allowedKeyB p.1))))
        (some (maskNorm msk)) false false = .ok recs ∧ l = recs.map projRecord) ∧
    find_activities db (some (.dict (m.filter (fun p => allowedKeyB p.1)))) msk = .ok l := by
  have hff : List.filter (fun p => allowedKeyB p.1)
      (List.filter (fun p => allowedKeyB p.1) m) =
      List.filter (fun p => allowedKeyB p.1) m := by
    rw [List.filter_filter]
    simp
  simp only [find_activities] at h ⊢
  rw [hff]
  cases hact : act_fltr db (some (.dict (m.filter (fun p => allowedKeyB p.1))))
      (some (maskNorm msk)) false false with
  | error e => rw [hact] at h; cases h
  | ok recs =>
    rw [hact] at h
    injection h with h
    exact ⟨⟨recs, rfl, h.symm⟩, by simp [h]⟩

/-- Witness data for C7: a record carrying an extra `location` field matched
through a filter whose `location` pattern disagrees with the record — the
pattern is stripped before matching, so the record is still returned as its
three-field projection. -/
def recC7 : Record :=
  [(chars "name", chars "hard coal mining"),
   (chars "reference product", chars "hard coal"),
   (chars "unit", chars "kilogram"),
   (chars "location", chars "GLO")]

def mC7 : List (Str × FltrVal) :=
  [(chars "name", .single (chars "hard coal")),
   (chars "location", .single (chars "RER"))]

def tC7 : ActTriple :=
  ⟨chars "hard coal mining", chars "hard coal", chars "kilogram"⟩

theorem find_activities_spec_witness :
    find_activities [recC7] (some (.dict (mC7.filter (fun p => allowedKeyB p.1)))) none =
      .ok [tC7] :=
  (find_activities_spec [recC7] mC7 none [tC7] (by decide)).2

/-- C9: the triple-deduplication step removes exactly the duplicate
(name, reference product, unit) triples — the result is duplicate-free with
the same members — it is idempotent, and on an already duplicate-free list
it is the identity. -/
theorem dedup_triples_correct (l : List ActTriple) :
    (dedupTriples l).Nodup ∧ (∀ x, x ∈ dedupTriples l ↔ x ∈ l) ∧
    dedupTriples (dedupTriples l) = dedupTriples l ∧
    (l.Nodup → dedupTriples l = l) := by
  refine ⟨List.nodup_dedup l, fun x => List.mem_dedup, ?_, fun h => List.dedup_eq_self.mpr h⟩
  exact List.dedup_eq_self.mpr (List.nodup_dedup l)

def tW9 : ActTriple := ⟨chars "transport", chars "lorry", chars "ton kilometer"⟩

theorem dedup_triples_correct_witness : dedupTriples [tW9] = [tW9] :=
  (dedup_triples_correct [tW9]).2.2.2 (by decide)

/-! Scenario labels (C5). -/

/-- Sums of indicator maps count the filtered elements. -/
theorem sum_ite_count {γ : Type} (p : γ → Bool) (l : List γ) :
    (l.map (fun x => if p x then 1 else 0)).sum = (l.filter p).length := by
  induction l with
  | nil => rfl
  | cons a t ih =>
    by_cases hp : p a
    · simp [hp, ih, List.filter_cons]
      omega
    · simp [hp, ih, List.filter_cons]

/-- Amended C5: every scenario entry contributes its composite
`MODEL - pathway[-external...]` label once, and a second time when it has
external scenarios; hence the label count is the entry count plus the count
of entries with external scenarios, and it equals the number of concatenated
slices exactly when each entry carries one external-data slice per
external-scenario flag. -/
theorem scenario_names_spec (scs : List Scenario) :
    scenario_names scs = ((scs.map (fun sc =>
      if sc.externalScenarios.isSome then [composite_label sc, composite_label sc]
      else [composite_label sc])).flatten) ∧
    (scenario_names scs).length =
      scs.length + (scs.filter (fun sc => sc.externalScenarios.isSome)).length ∧
    ((∀ sc ∈ scs, (sc.externalData.getD []).length =
        (if sc.externalScenarios.isSome then 1 else 0)) →
      (scenario_names scs).length = scenario_data_len scs) := by
  have h1 : scenario_names scs = ((scs.map (fun sc =>
      if sc.externalScenarios.isSome then [composite_label sc, composite_label sc]
      else [composite_label sc])).flatten) := by
    induction scs with
    | nil => rfl
    | cons sc rest ih =>
      rw [scenario_names, ih]
      cases hx : sc.externalScenarios with
      | none => simp [composite_label, hx]
      | some exts => simp [composite_label, hx]
  have h2 : (scenario_names scs).length =
      scs.length + (scs.filter (fun sc => sc.externalScenarios.isSome)).length := by
    clear h1
    induction scs with
    | nil => rfl
    | cons sc rest ih =>
      rw [scenario_names, List.length_append, ih]
      cases hx : sc.externalScenarios <;> simp [List.filter_cons, hx] <;> omega
  refine ⟨h1, h2, fun hyp => ?_⟩
  rw [h2]
  unfold scenario_data_len
  have hmap : scs.map (fun sc => (sc.externalData.getD []).length) =
      scs.map (fun sc => if sc.externalScenarios.isSome then 1 else 0) :=
    List.map_congr_left hyp
  rw [hmap, sum_ite_count]

/-- Counterexample data for C5: one scenario entry carrying one external
scenario. -/
def scC5 : Scenario :=
  ⟨chars "remind", chars "SSP2-Base", [], [], some [chars "ext1"],
    some [⟨[]⟩], none⟩

/-- Counterexample to C5 as stated: a single scenario entry with an external
scenario contributes its composite label twice, not exactly once. -/
theorem scenario_names_counterexample :
    scenario_names [scC5] = [composite_label scC5, composite_label scC5] ∧
    (scenario_names [scC5]).length = 2 ∧ [scC5].length = 1 :=
  ⟨by decide, by decide, rfl⟩

theorem scenario_names_spec_witness :
    (scenario_names [scC5]).length = scenario_data_len [scC5] :=
  (scenario_names_spec [scC5]).2.2 (by decide)

/-! First-writer-wins in the variable mapping (C3). -/

/-- Members of a dict after insertion: the new binding or an old one. -/
theorem mem_dictInsert {α : Type} (m : List (Str × α)) (k : Str) (v : α) :
    ∀ x ∈ dictInsert m k v, x = (k, v) ∨ x ∈ m := by
  induction m with
  | nil =>
    intro x hx
    rw [dictInsert, List.mem_singleton] at hx
    exact Or.inl hx
  | cons p rest ih =>
    intro x hx
    rw [dictInsert] at hx
    by_cases hp : p.1 = k
    · rw [if_pos hp, List.mem_cons] at hx
      rcases hx with h | h
      · exact Or.inl h
      · exact Or.inr (List.mem_cons_of_mem _ h)
    · rw [if_neg hp, List.mem_cons] at hx
      rcases hx with h | h
      · exact Or.inr (h ▸ List.mem_cons_self _ _)
      · rcases ih x h with h2 | h2
        · exact Or.inl h2
        · exact Or.inr (List.mem_cons_of_mem _ h2)

/-- Image members of a dict after insertion. -/
theorem mem_map_dictInsert {α β : Type} (f : Str × α → β) (m : List (Str × α))
    (k : Str) (v : α) : ∀ x ∈ (dictInsert m k v).map f, x = f (k, v) ∨ x ∈ m.map f := by
  intro x hx
  rcases List.mem_map.mp hx with ⟨y, hy, rfl⟩
  rcases mem_dictInsert m k v y hy with h | h
  · exact Or.inl (by rw [h])
  · exact Or.inr (List.mem_map_of_mem f h)

/-- Inserting a binding whose image is fresh preserves duplicate-freedom of
the dict's image. -/
theorem dictInsert_map_nodup {α β : Type} (f : Str × α → β) (k : Str) (v : α) :
    ∀ (m : List (Str × α)), (m.map f).Nodup → f (k, v) ∉ m.map f →
      ((dictInsert m k v).map f).Nodup
  | [], _, _ => by simp [dictInsert]
  | p :: rest, hnd, hni => by
    rw [List.map_cons, List.nodup_cons] at hnd
    rw [List.map_cons, List.mem_cons] at hni
    push_neg at hni
    rw [dictInsert]
    by_cases hp : p.1 = k
    · rw [if_pos hp, List.map_cons, List.nodup_cons]
      exact ⟨hni.2, hnd.2⟩
    · rw [if_neg hp, List.map_cons, List.nodup_cons]
      refine ⟨fun hc => ?_, dictInsert_map_nodup f k v rest hnd.2 hni.2⟩
      rcases mem_map_dictInsert f rest k v _ hc with h | h
      · exact hni.1 h.symm
      · exact hnd.1 h

/-- Invariant of the alias-table pass: every mapping entry's scenario
variable has been recorded in the claimed-variable list, and the scenario
variables of the mapping are pairwise distinct. -/
def Pass1Inv (st : List Str × Mapping) : Prop :=
  (∀ p ∈ st.2, p.2.scenarioVariable ∈ st.1) ∧
  (st.2.map (fun p => p.2.scenarioVariable)).Nodup

theorem pass1_aliases_inv (vars models : List Str) (db : List Record) (var : Str)
    (eco : EcoAliases) :
    ∀ (al : List (Str × Str)) (st st2 : List Str × Mapping),
      pass1_aliases vars models db var eco al st = .ok st2 → Pass1Inv st → Pass1Inv st2
  | [], st, st2, h, hinv => by
    rw [pass1_aliases] at h
    injection h with h
    exact h ▸ hinv
  | mm :: rest, st, st2, h, hinv => by
    rw [pass1_aliases] at h
    split at h
    case isTrue hcond =>
      split at h
      case isTrue hmem =>
        exact pass1_aliases_inv vars models db var eco rest st st2 h hinv
      case isFalse hnmem =>
        cases hfa : find_activities db eco.fltr eco.mask with
        | error e => rw [hfa] at h; cases h
        | ok ds =>
          rw [hfa] at h
          refine pass1_aliases_inv vars models db var eco rest _ st2 h ⟨?_, ?_⟩
          · intro p hp
            rcases mem_dictInsert st.2 var ⟨mm.2, dedupTriples ds⟩ p hp with h2 | h2
            · rw [h2]
              exact List.mem_append_right _ (List.mem_singleton_self _)
            · exact List.mem_append_left _ (hinv.1 p h2)
          · apply dictInsert_map_nodup _ _ _ _ hinv.2
            intro hc
            rcases List.mem_map.mp hc with ⟨p, hp, hfp⟩
            have hps : p.2.scenarioVariable = mm.2 := hfp
            exact hnmem (hps ▸ hinv.1 p hp)
    case isFalse =>
      exact pass1_aliases_inv vars models db var eco rest st st2 h hinv

theorem pass1_table_inv (vars models : List Str) (db : List Record) :
    ∀ (table : List AliasEntry) (st st2 : List Str × Mapping),
      pass1_table vars models db table st = .ok st2 → Pass1Inv st → Pass1Inv st2
  | [], st, st2, h, hinv => by
    rw [pass1_table] at h
    injection h with h
    exact h ▸ hinv
  | e :: rest, st, st2, h, hinv => by
    rw [pass1_table] at h
    split at h
    · exact pass1_table_inv vars models db rest st st2 h hinv
    · rename_i al hia
      split at h
      · exact pass1_table_inv vars models db rest st st2 h hinv
      · rename_i eco hea
        split at h
        · cases h
        · rename_i st3 hal
          exact pass1_table_inv vars models db rest st3 st2 h
            (pass1_aliases_inv vars models db e.var eco al st st3 hal hinv)

/-- The extension pass is the identity on scenarios without configurations. -/
theorem pass2_scenarios_noconfig :
    ∀ (scs : List Scenario) (m : Mapping),
      (∀ sc ∈ scs, sc.configurations = none) → pass2_scenarios scs m = .ok m
  | [], m, _ => rfl
  | sc :: rest, m, h => by
    rw [pass2_scenarios, h sc (List.mem_cons_self _ _)]
    exact pass2_scenarios_noconfig rest m (fun x hx => h x (List.mem_cons_of_mem _ hx))

/-- Amended C3: within the alias-table pass, first-writer-wins holds — a
scenario variable is claimed at most once, so the produced mapping never
carries the same `scenario variable` twice; consequently the full
`add_variables_mapping` output is duplicate-free whenever no scenario
carries a production-pathways configuration.  (The extension pass checks
only the canonical-variable key, so it can duplicate a scenario variable —
see the counterexample.) -/
theorem alias_pass_first_writer_wins :
    (∀ (vars models : List Str) (db : List Record) (table : List AliasEntry)
        (st2 : List Str × Mapping),
      pass1_table vars models db table ([], []) = .ok st2 →
      (st2.2.map (fun p => p.2.scenarioVariable)).Nodup) ∧
    (∀ (scenarios : List Scenario) (table : List AliasEntry) (m : Mapping),
      (∀ sc ∈ scenarios, sc.configurations = none) →
      add_variables_mapping scenarios table = .ok m →
      (m.map (fun p => p.2.scenarioVariable)).Nodup) := by
  have hbase : Pass1Inv ([], []) :=
    ⟨fun p hp => absurd hp (List.not_mem_nil p), List.nodup_nil⟩
  have hmain : ∀ (vars models : List Str) (db : List Record) (table : List AliasEntry)
      (st2 : List Str × Mapping),
      pass1_table vars models db table ([], []) = .ok st2 →
      (st2.2.map (fun p => p.2.scenarioVariable)).Nodup :=
    fun vars models db table st2 h =>
      (pass1_table_inv vars models db table ([], []) st2 h hbase).2
  refine ⟨hmain, fun scenarios table m hnc h => ?_⟩
  unfold add_variables_mapping at h
  split at h
  · cases h
  · rename_i vars hav
    split at h
    · cases h
    · rename_i st hp1
      rw [pass2_scenarios_noconfig scenarios st.2 hnc] at h
      injection h with h
      exact h ▸ hmain _ _ _ _ _ hp1

/-- Witness data for the amended C3: a one-row alias table resolved against
a single configuration-free scenario. -/
def recW3 : Record :=
  [(chars "name", chars "natural gas production"),
   (chars "reference product", chars "natural gas"),
   (chars "unit", chars "cubic meter")]

def scW3 : Scenario :=
  ⟨chars "image", chars "SSP1", [chars "FE|Gas"], [recW3], none, none, none⟩

def tableW3 : List AliasEntry :=
  [⟨chars "Gas", some [(chars "image", chars "FE|Gas")],
    some ⟨some (.str (chars "natural gas")), none⟩⟩]

def mapW3 : Mapping :=
  [(chars "Gas", ⟨chars "FE|Gas",
    [⟨chars "natural gas production", chars "natural gas", chars "cubic meter"⟩]⟩)]

theorem alias_pass_first_writer_wins_witness :
    (mapW3.map (fun p => p.2.scenarioVariable)).Nodup :=
  alias_pass_first_writer_wins.2 [scW3] tableW3 mapW3 (by decide) (by decide)

/-- Counterexample data for C3 as stated: the alias-table pass claims
`FE|Coal` for `Coal`, and the production-pathways extension pass then adds
`CoalExt` carrying the same scenario variable. -/
def recC3 : Record :=
  [(chars "name", chars "hard coal mining"),
   (chars "reference product", chars "hard coal"),
   (chars "unit", chars "kilogram")]

def ppC3 : ProductionPathway :=
  ⟨chars "FE|Coal", some [(chars "name", .single (chars "hard coal"))]⟩

def scC3 : Scenario :=
  ⟨chars "remind", chars "SSP2", [chars "FE|Coal"], [recC3], none, none,
    some ⟨some [(chars "CoalExt", ppC3)]⟩⟩

def tableC3 : List AliasEntry :=
  [⟨chars "Coal", some [(chars "remind", chars "FE|Coal")],
    some ⟨some (.dict [(chars "name", .single (chars "hard coal"))]), none⟩⟩]

def tripleC3 : ActTriple :=
  ⟨chars "hard coal mining", chars "hard coal", chars "kilogram"⟩

def mapC3 : Mapping :=
  [(chars "Coal", ⟨chars "FE|Coal", [tripleC3]⟩),
   (chars "CoalExt", ⟨chars "FE|Coal", [tripleC3]⟩)]

/-- Counterexample to C3 as stated: `add_variables_mapping` succeeds and its
output carries the scenario variable `FE|Coal` in two entries, one from the
alias table and one from the production-pathways extension pass. -/
theorem add_variables_mapping_duplicate_sv :
    add_variables_mapping [scC3] tableC3 = .ok mapC3 ∧
    ¬ ((mapC3.map (fun p => p.2.scenarioVariable)).Nodup) :=
  ⟨by decide, by decide⟩

end Premise
